import Mathlib

/-!
Verification of the conversational orchestration runtime of fsc-assistant.

Shallow embedding of:
- src/assistant/llm/runtime/tools.py      (ToolExecutionManager)
- src/assistant/llm/runtime/orchestrator.py (ChatOrchestrator helpers)
- src/assistant/llm/runtime/config.py     (LLMProviderConfig.iter_models)
- src/assistant/llm/agent_client.py       (invoke_chat_completions retry loop)

External collaborators (json serialization, the provider SDK, the tiktoken
token counter) are represented by explicit parameters; Python exceptions are
represented by Except values.
-/

namespace Fsc

/-- A chat message: the Python dict with keys role, content and
(optionally) tool_calls.  The field hasToolCalls records whether the
key tool_calls is present in the dict, which is what the source tests
with the expression (tool_calls in msg). -/
structure Msg where
  role : String
  content : Option String := none
  hasToolCalls : Bool := false
  deriving DecidableEq, Repr

/-- Default message used only to give List.getD a value; every index the
source reads is in range in the cases the theorems cover. -/
def mdefault : Msg := { role := "", content := none, hasToolCalls := false }

/-! ## tools.py — ToolExecutionManager -/

/-- A Python value as far as tools.py inspects it: the source only
distinguishes lists (kept structured) from everything else (serialized
with json.dumps).  Strings are kept separate because error results are
strings. -/
inductive JValue where
  | str (s : String)
  | list (l : List JValue)
  | other

/-- Content of the tool result message: Python None, a structured list,
or serialized text. -/
inductive ToolContent where
  | null
  | list (l : List JValue)
  | text (s : String)

/-- First element of the message pair returned by execute: the tool call
record dict. -/
structure ToolCallRecord where
  id : String
  type : String
  name : String
  arguments : String
  deriving DecidableEq, Repr

/-- Second element of the message pair returned by execute: the tool
result message dict. -/
structure ToolResultMsg where
  role : String
  toolCallId : String
  name : String
  content : ToolContent

/-- External collaborators used by ToolExecutionManager.execute, over an
argument type A and a context type C:
- parseArgs models json.loads on the raw argument text, with .error for a
  raised JSONDecodeError;
- empty models the empty dict used when the argument text is empty;
- withContext models the dict update that injects the ambient context;
- dumps models json.dumps with CustomJsonEncoder. -/
structure ToolEnv (A C : Type) where
  parseArgs : String → Except String A
  empty : A
  withContext : A → C → A
  dumps : JValue → String

/-- Mutable state of a ToolExecutionManager: the signature
(name, argument text, assistant content) of the immediately preceding
invocation, used by the anti-loop guard. -/
structure ToolExecState where
  lastSignature : Option (String × String × String) := none
  deriving DecidableEq, Repr

/-- Result of one execute invocation: the two returned messages, the new
manager state, and an instrumentation bit recording whether the tool
callable itself was applied. -/
structure ExecResult where
  callRecord : ToolCallRecord
  resultMsg : ToolResultMsg
  newState : ToolExecState
  toolRan : Bool

/-- The guarded block of execute: json.loads of the argument text (the
empty string short-circuits to the empty dict), injection of the context
when one is supplied, then the tool call.  An exception raised anywhere
in the block is an .error value. -/
def tryBlock {A C : Type} (env : ToolEnv A C) (tool : A → Except String JValue)
    (argsText : String) (context : Option C) : Except String JValue :=
  match (if argsText = "" then Except.ok env.empty else env.parseArgs argsText) with
  | .error e => .error e
  | .ok args =>
    let args := match context with
      | some c => env.withContext args c
      | none => args
    tool args

/-- Whether the guarded block reaches the tool call: true exactly when the
argument parsing step succeeds. -/
def parseOk {A C : Type} (env : ToolEnv A C) (argsText : String) : Bool :=
  match (if argsText = "" then Except.ok env.empty else env.parseArgs argsText) with
  | .error _ => false
  | .ok _ => true

/-- ToolExecutionManager.execute from tools.py.  Returns the call record
and the result message; the anti-loop guard substitutes a skipped result
when the signature equals the previous one; any exception raised by the
guarded block becomes a textual error result.  List results are kept
structured, everything else goes through dumps. -/
def execute {A C : Type} (env : ToolEnv A C) (tool : A → Except String JValue)
    (st : ToolExecState) (assistantContent toolCallId toolType toolName argsText : String)
    (context : Option C) : ExecResult :=
  let signature := (toolName, argsText, assistantContent)
  let callRec : ToolCallRecord :=
    { id := toolCallId, type := toolType, name := toolName, arguments := argsText }
  if st.lastSignature = some signature then
    { callRecord := callRec
      resultMsg := { role := "tool", toolCallId := toolCallId, name := toolName
                     content := .text ("Skipped repeated tool call: " ++ toolName) }
      newState := st
      toolRan := false }
  else
    let result : JValue :=
      match tryBlock env tool argsText context with
      | .ok v => v
      | .error e => .str ("Error executing tool " ++ toolName ++ ": " ++ e)
    let content : ToolContent :=
      match result with
      | .list l => .list l
      | v => .text (env.dumps v)
    { callRecord := callRec
      resultMsg := { role := "tool", toolCallId := toolCallId, name := toolName
                     content := content }
      newState := { lastSignature := some signature }
      toolRan := parseOk env argsText }

/-! ## orchestrator.py — message cleanup helpers -/

/-- ChatRequest from transport.py: the normalized request dataclass.
Tool metadata entries are opaque to the orchestrator logic under study,
so they are represented by an abstract token each. -/
structure ChatRequest where
  messages : List Msg
  model : String
  temperature : ℚ := 0.1
  maxCompletionTokens : Option ℕ := none
  reasoningEffort : Option String := none
  tools : Option (List String) := none
  toolChoice : Option String := none
  stream : Bool := false
  deriving DecidableEq, Repr

/-- Whether a message is tool shaped in the sense of
ChatOrchestrator.clean of tool calls: role tool, or the key tool_calls
present in the dict. -/
def toolShaped (m : Msg) : Bool :=
  m.role == "tool" || m.hasToolCalls

/-- ChatOrchestrator._clean_tool_calls: keep, in order, exactly the
messages that are not tool shaped. -/
def cleanToolCalls (messages : List Msg) : List Msg :=
  messages.filter (fun m => !toolShaped m)

/-- Whether a message has role user or assistant (the cut candidates in
ChatOrchestrator._reduce_messages). -/
def isUserOrAssistant (m : Msg) : Bool :=
  m.role == "user" || m.role == "assistant"

/-- The offset scan of _reduce_messages: try indices i, i-1, ..., 0 and
return the first one whose message has role user or assistant. -/
def scanCut (tail : List Msg) : ℕ → Option ℕ
  | 0 => if isUserOrAssistant (tail.getD 0 mdefault) then some 0 else none
  | i + 1 =>
    if isUserOrAssistant (tail.getD (i + 1) mdefault) then some (i + 1)
    else scanCut tail i

/-- The index at which _reduce_messages cuts the non-system tail: the
largest index at or below half whose message is a user or assistant
message, or half itself when the scan finds none. -/
def findCut (tail : List Msg) (half : ℕ) : ℕ :=
  (scanCut tail half).getD half

/-- The leading system message of a message list, when there is one
(messages[0:1] when messages[0] has role system). -/
def systemHead (messages : List Msg) : List Msg :=
  match messages with
  | [] => []
  | m :: _ => if m.role == "system" then [m] else []

/-- The non-system tail of a message list: everything after a leading
system message, or the whole list when there is none. -/
def nonSystemTail (messages : List Msg) : List Msg :=
  match messages with
  | [] => []
  | m :: rest => if m.role == "system" then rest else messages

/-- ChatOrchestrator._reduce_messages.  Raises (returns .error) the
ValueError texts of the source; the empty-tail case raises the
IndexError of the out-of-range read tail[half - offset]. -/
def reduceMessages (messages : List Msg) : Except String (List Msg) :=
  if messages.isEmpty then .error "messages are required"
  else
    let head := systemHead messages
    let tail := nonSystemTail messages
    if tail.length = 1 then .error "input text exceeded input token limit"
    else if tail.isEmpty then .error "list index out of range"
    else .ok (head ++ tail.drop (findCut tail (tail.length / 2)))

/-! ## orchestrator.py — error classification and retry -/

/-- Provider errors as classified by the textual patterns that
_adjust_request_on_error searches for in str(exc), in source order:
does not support parameters tools; maximum tokens exceeds the model
limit of n; input is too long for requested model; only temperature one
is supported; got an unexpected keyword argument kw; a rate limit
error; any other error text. -/
inductive ProviderError where
  | toolsUnsupported
  | maxTokensExceeds (limit : ℕ)
  | inputTooLong
  | temperatureFixed
  | unexpectedKeyword (kw : String)
  | rateLimit
  | otherErr (msg : String)
  deriving DecidableEq, Repr

/-- The rebuild of the unexpected-keyword branch: the request dict with
the offending key removed, passed back through the ChatRequest
constructor, so the field falls back to its dataclass default; the keys
messages and model have no default, so removing them raises a
TypeError; an unknown key leaves the request unchanged. -/
def dropKeyword (request : ChatRequest) (kw : String) : Except String ChatRequest :=
  if kw = "messages" ∨ kw = "model" then .error "TypeError: missing required argument"
  else if kw = "temperature" then .ok { request with temperature := 0.1 }
  else if kw = "max_completion_tokens" then .ok { request with maxCompletionTokens := none }
  else if kw = "reasoning_effort" then .ok { request with reasoningEffort := none }
  else if kw = "tools" then
    .ok { request with tools := none, messages := cleanToolCalls request.messages }
  else if kw = "tool_choice" then .ok { request with toolChoice := none }
  else if kw = "stream" then .ok { request with stream := false }
  else .ok request

/-- ChatOrchestrator._adjust_request_on_error: .ok (some r) is a
request to retry with, .ok none means the error is fatal and is
re-raised unchanged, .error s is an exception raised inside the
adjustment itself (by _reduce_messages or the ChatRequest rebuild),
which replaces the provider error seen by the caller. -/
def adjustRequestOnError (request : ChatRequest) (e : ProviderError) :
    Except String (Option ChatRequest) :=
  match e with
  | .toolsUnsupported =>
    .ok (some { request with messages := cleanToolCalls request.messages, tools := none })
  | .maxTokensExceeds limit =>
    .ok (some { request with maxCompletionTokens := some limit })
  | .inputTooLong =>
    match reduceMessages request.messages with
    | .error s => .error s
    | .ok ms => .ok (some { request with messages := ms })
  | .temperatureFixed => .ok (some { request with temperature := 1 })
  | .unexpectedKeyword kw =>
    match dropKeyword request kw with
    | .error s => .error s
    | .ok r => .ok (some r)
  | .rateLimit => .ok none
  | .otherErr _ => .ok none

/-- Outcome of a dispatch through _invoke_with_retry, over an opaque
response type R: a returned response, the original provider error
re-raised, an exception raised by the adjustment logic itself, or a run
longer than the modeled sequence of provider outcomes. -/
inductive DispatchOutcome (R : Type) where
  | ok (r : R)
  | raised (e : ProviderError)
  | raisedAdjust (s : String)
  | hung
  deriving DecidableEq, Repr

/-- Trace of a _invoke_with_retry run: the final outcome, the requests
attempted in order, and the messages appended to the HistoryManager in
chronological order (the finally block appends the originally supplied
messages at every level of the recursion, innermost level first). -/
structure RunTrace (R : Type) where
  outcome : DispatchOutcome R
  requests : List ChatRequest
  history : List Msg
  deriving Repr

/-- ChatOrchestrator._invoke_with_retry.  The provider is modeled by an
oracle listing the outcome of each successive transport call: the n-th
transport call returns or raises the n-th oracle entry. -/
def invokeWithRetry {R : Type} (oracle : List (Except ProviderError R))
    (request : ChatRequest) (orig : List Msg) : RunTrace R :=
  match oracle with
  | [] => { outcome := .hung, requests := [], history := [] }
  | o :: rest =>
    match o with
    | .ok r => { outcome := .ok r, requests := [request], history := orig }
    | .error e =>
      match adjustRequestOnError request e with
      | .error s => { outcome := .raisedAdjust s, requests := [request], history := orig }
      | .ok none => { outcome := .raised e, requests := [request], history := orig }
      | .ok (some req) =>
        let t := invokeWithRetry rest req orig
        { outcome := t.outcome, requests := request :: t.requests,
          history := t.history ++ orig }

/-! ## config.py — model enumeration -/

/-- LLMProviderConfig.iter_models: yield the preferred model first when
it is truthy and among the configured models, then every configured
model in order, skipping those equal to a truthy preferred id.  A
missing or empty preferred id (falsy in Python) disables both steps. -/
def iterModels (models : List String) (preferred : Option String) : List String :=
  match preferred with
  | some p =>
    if p = "" then models
    else (if p ∈ models then [p] else []) ++ models.filter (fun m => !(m == p))
  | none => models

/-! ## orchestrator.py — history token budget -/

/-- MAX_INPUT_TOKENS from orchestrator.py. -/
def MAX_INPUT_TOKENS : ℕ := 64000

/-- Modelled from the spec: LLMChatHistoryManager.get_chat_history
(assistant/llm/history.py is not under src); section 4.4 of the spec:
getChatHistory(n) returns the last n entries, oldest first, never more
than n, never reordered. -/
def getChatHistory (entries : List Msg) (n : ℕ) : List Msg :=
  entries.drop (entries.length - n)

/-- The greedy selection loop of ChatOrchestrator._extend_history over
the reversed (newest first) history: take entries while the running
token total stays within MAX_INPUT_TOKENS, stopping at the first entry
that would exceed it.  The token counter tk models
count_message_tokens, which is not under src and is kept abstract. -/
def greedyFit (tk : Msg → ℕ) : ℕ → List Msg → List Msg
  | _, [] => []
  | total, m :: rest =>
    if total + tk m > MAX_INPUT_TOKENS then []
    else m :: greedyFit tk (total + tk m) rest

/-- ChatOrchestrator._extend_history: sum the token counts of the new
turn, greedily fit the most recent entries of the last includeHistory
history entries newest first, re-reverse to chronological order and
prepend. -/
def extendHistory (tk : Msg → ℕ) (entries : List Msg) (includeHistory : ℕ)
    (messages : List Msg) : List Msg :=
  let total := (messages.map tk).sum
  let fitted := greedyFit tk total (getChatHistory entries includeHistory).reverse
  fitted.reverse ++ messages

/-! ## orchestrator.py — the tool round -/

/-- A tool call parsed out of a provider response: the tuple
(id, type, name, raw argument text). -/
structure ParsedToolCall where
  id : String
  type : String
  name : String
  args : String

/-- The per-call loop of ChatOrchestrator._handle_tool_loop: skip calls
whose name is not in the tool mapping, execute the mapped ones in order
through the ToolExecutionManager, pass the ambient context only to
stateful tools, and collect call records and result messages.  The last
component counts how many times a tool callable was actually applied. -/
def runToolCalls {A C : Type} (env : ToolEnv A C)
    (mapping : String → Option ((A → Except String JValue) × Bool))
    (context : Option C) (assistantContent : String) :
    ToolExecState → List ParsedToolCall →
      ToolExecState × List ToolCallRecord × List ToolResultMsg × ℕ
  | st, [] => (st, [], [], 0)
  | st, c :: rest =>
    match mapping c.name with
    | none => runToolCalls env mapping context assistantContent st rest
    | some (f, stateless) =>
      let ctx := if stateless then none else context
      let r := execute env f st assistantContent c.id c.type c.name c.args ctx
      let t := runToolCalls env mapping context assistantContent r.newState rest
      (t.1, r.callRecord :: t.2.1, r.resultMsg :: t.2.2.1,
        (if r.toolRan then 1 else 0) + t.2.2.2)

/-- What _handle_tool_loop does after the per-call loop: with no
executed calls it returns the assistant text at once (no follow-up
messages, no further provider call); otherwise it builds the follow-up
turn (the assistant message carrying the call records, then the result
messages) and re-enters the orchestrator. -/
inductive ToolLoopOutcome where
  | done (text : String)
  | followUp (assistantMsg : Msg) (calls : List ToolCallRecord) (results : List ToolResultMsg)

/-- ChatOrchestrator._handle_tool_loop: run the calls, then either
return the assistant text (when no call executed) or assemble the
follow-up turn.  Also returns the final tool manager state and the
number of tool callable applications. -/
def handleToolLoop {A C : Type} (env : ToolEnv A C)
    (mapping : String → Option ((A → Except String JValue) × Bool))
    (context : Option C) (assistantContent : String) (st : ToolExecState)
    (toolCalls : List ParsedToolCall) : ToolLoopOutcome × ToolExecState × ℕ :=
  let t := runToolCalls env mapping context assistantContent st toolCalls
  if t.2.1.isEmpty then (.done assistantContent, t.1, t.2.2.2)
  else
    (.followUp { role := "assistant", content := some assistantContent, hasToolCalls := true }
      t.2.1 t.2.2.1, t.1, t.2.2.2)

/-! ## agent_client.py — rate limit retry -/

/-- Errors raised by the provider SDK as AgentClient.invoke_chat_completions
classifies them: a RateLimitError, or anything else. -/
inductive AgentError where
  | rateLimit
  | otherErr (msg : String)
  deriving DecidableEq, Repr

/-- Outcome of the retry loop of invoke_chat_completions. -/
inductive AgentOutcome (R : Type) where
  | ok (r : R)
  | raised (e : AgentError)
  | hung
  deriving DecidableEq, Repr

/-- Trace of the retry loop: final outcome, the parameters passed to
each provider call in order, and the waits slept between attempts. -/
structure TenacityTrace (P R : Type) where
  outcome : AgentOutcome R
  requests : List P
  waits : List ℕ

/-- The wait of wait_exponential with multiplier one, min four, max
ten, as configured in invoke_chat_completions: an exponential of base
two in the attempt number, clamped to the interval four to ten (with
these bounds both waits actually slept equal four). -/
def tenacityWait (attemptNumber : ℕ) : ℕ :=
  max 4 (min (2 ^ (attemptNumber - 1)) 10)

/-- The retry decorator applied in AgentClient.invoke_chat_completions:
retry only on RateLimitError, stop after three attempts, reraise the
last error.  The provider is modeled by an oracle listing each
successive call outcome; attemptNumber is the one-based attempt count
of the current call.  Each attempt passes the same params value, as the
decorated closure does. -/
def tenacityRun {P R : Type} (params : P) (oracle : List (Except AgentError R))
    (attemptNumber : ℕ) : TenacityTrace P R :=
  match oracle with
  | [] => { outcome := .hung, requests := [], waits := [] }
  | o :: rest =>
    match o with
    | .ok r => { outcome := .ok r, requests := [params], waits := [] }
    | .error e =>
      if e = .rateLimit ∧ attemptNumber < 3 then
        let t := tenacityRun params rest (attemptNumber + 1)
        { outcome := t.outcome, requests := params :: t.requests,
          waits := tenacityWait attemptNumber :: t.waits }
      else { outcome := .raised e, requests := [params], waits := [] }

/-- AgentClient.invoke_chat_completions, after its one-time message
normalization: the tenacity loop started at attempt one. -/
def invokeChatCompletions {P R : Type} (params : P)
    (oracle : List (Except AgentError R)) : TenacityTrace P R :=
  tenacityRun params oracle 1

/-! ## Statement of the specified reduction, and concrete fixtures -/

/-- The reduction as the spec sentence states it (for comparison with
reduceMessages): always drop exactly the oldest half of the non-system
messages, keep a leading system message, fail when at most one
non-system message remains. -/
def reduceMessagesClaimed (messages : List Msg) : Except String (List Msg) :=
  let head := systemHead messages
  let tail := nonSystemTail messages
  if tail.length ≤ 1 then .error "input text exceeded input token limit"
  else .ok (head ++ tail.drop (tail.length / 2))

/-- The request produced by the input-too-long adjustment in the
non-fatal case, written in terms of the cut index: the leading system
message followed by the non-system tail from the cut on. -/
def reducedRequest (request : ChatRequest) : ChatRequest :=
  let tail := nonSystemTail request.messages
  let ms := systemHead request.messages ++ tail.drop (findCut tail (tail.length / 2))
  { request with messages := ms }

/-- The history block that extendHistory prepends before the new turn. -/
def prependedBlock (tk : Msg → ℕ) (entries : List Msg) (n : ℕ)
    (messages : List Msg) : List Msg :=
  (greedyFit tk ((messages.map tk).sum) (getChatHistory entries n).reverse).reverse

/-- Fixture: a user message. -/
def uMsg : Msg := { role := "user", content := some "q" }

/-- Fixture: an assistant message. -/
def aMsg : Msg := { role := "assistant", content := some "r" }

/-- Fixture: a tool result message (tool shaped by role). -/
def tMsg : Msg := { role := "tool", content := some "out" }

/-- Fixture: a system message. -/
def sMsg : Msg := { role := "system", content := some "sys" }

/-- Fixture: a tool environment over unit arguments and unit context. -/
def unitEnv : ToolEnv Unit Unit :=
  { parseArgs := fun _ => .ok ()
    empty := ()
    withContext := fun a _ => a
    dumps := fun v => match v with
      | .str s => s
      | .list _ => "[]"
      | .other => "null" }

/-- Fixture: a tool callable that raises. -/
def failTool : Unit → Except String JValue := fun _ => .error "boom"

/-- Fixture: a tool callable that returns a string result. -/
def okTool : Unit → Except String JValue := fun _ => .ok (.str "done")

/-- Fixture: a token counter charging a flat 30000 tokens per message. -/
def tkW : Msg → ℕ := fun _ => 30000

/-- Fixture: a request that carries a tool schema and a tool shaped
message. -/
def reqTools : ChatRequest :=
  { messages := [uMsg, tMsg], model := "m", tools := some ["echo"] }

/-- Fixture: a request with a single non-system message. -/
def reqSingle : ChatRequest := { messages := [uMsg], model := "m" }

/-- Fixture: a request with a system message and three non-system
messages. -/
def reqFour : ChatRequest :=
  { messages := [sMsg, uMsg, uMsg, aMsg], model := "m" }

/-- Fixture: a provider that answers every call with a rate limit
error. -/
def oracleRL : List (Except AgentError ℕ) :=
  [.error .rateLimit, .error .rateLimit, .error .rateLimit]

/-- Decidable equality for Except values, used to evaluate the embedded
functions on concrete inputs. -/
instance {ε α : Type} [DecidableEq ε] [DecidableEq α] : DecidableEq (Except ε α) := fun x y =>
  match x, y with
  | .ok a, .ok b => decidable_of_iff (a = b) (by simp)
  | .error a, .error b => decidable_of_iff (a = b) (by simp)
  | .ok _, .error _ => isFalse (by simp)
  | .error _, .ok _ => isFalse (by simp)

/-! ## Theorems -/

/-- C1: in ToolExecutionManager.execute, any exception raised by the
guarded block (a failure to parse the argument text as JSON, or an
exception raised by the tool callable) is caught and converted into the
textual error result of a message of role tool; execute returns
normally by construction, so a tool failure never aborts the
conversation. -/
theorem execute_catches_tool_errors {A C : Type} (env : ToolEnv A C)
    (tool : A → Except String JValue) (st : ToolExecState)
    (assistantContent toolCallId toolType toolName argsText : String)
    (context : Option C) (e : String)
    (hsig : st.lastSignature ≠ some (toolName, argsText, assistantContent))
    (herr : tryBlock env tool argsText context = .error e) :
    (execute env tool st assistantContent toolCallId toolType toolName argsText context).resultMsg.role
        = "tool" ∧
    (execute env tool st assistantContent toolCallId toolType toolName argsText context).resultMsg.content
        = .text (env.dumps (.str ("Error executing tool " ++ toolName ++ ": " ++ e))) := by
  constructor
  · simp [execute, hsig]
  · simp [execute, hsig, herr]

/-- Witness for C1: a concrete tool that raises is converted into a
textual error result of role tool. -/
theorem execute_catches_tool_errors_witness :
    (({} : ToolExecState).lastSignature ≠ some ("echo", "x", "hi")) ∧
    tryBlock unitEnv failTool "x" none = .error "boom" ∧
    ((execute unitEnv failTool {} "hi" "id1" "function" "echo" "x" none).resultMsg.role = "tool" ∧
      (execute unitEnv failTool {} "hi" "id1" "function" "echo" "x" none).resultMsg.content =
        .text (unitEnv.dumps (.str ("Error executing tool " ++ "echo" ++ ": " ++ "boom")))) :=
  ⟨by simp, rfl,
    execute_catches_tool_errors unitEnv failTool {} "hi" "id1" "function" "echo" "x" none "boom"
      (by simp) rfl⟩

/-- C2: two consecutive execute invocations with an identical triple of
tool name, argument text and assistant content run the underlying
callable exactly once, on the first invocation; the second invocation
does not run the tool and its result message content is the skipped
repeated tool call text. -/
theorem execute_antiloop {A C : Type} (env : ToolEnv A C) (tool : A → Except String JValue)
    (st : ToolExecState) (assistantContent id1 ty1 id2 ty2 toolName argsText : String)
    (context : Option C)
    (hsig : st.lastSignature ≠ some (toolName, argsText, assistantContent))
    (hparse : parseOk env argsText = true) :
    (execute env tool st assistantContent id1 ty1 toolName argsText context).toolRan = true ∧
    (execute env tool (execute env tool st assistantContent id1 ty1 toolName argsText context).newState
        assistantContent id2 ty2 toolName argsText context).toolRan = false ∧
    (execute env tool (execute env tool st assistantContent id1 ty1 toolName argsText context).newState
        assistantContent id2 ty2 toolName argsText context).resultMsg.content =
      .text ("Skipped repeated tool call: " ++ toolName) := by
  have h1 : (execute env tool st assistantContent id1 ty1 toolName argsText context).newState =
      { lastSignature := some (toolName, argsText, assistantContent) } := by
    simp [execute, hsig]
  refine ⟨?_, ?_, ?_⟩
  · simp [execute, hsig, hparse]
  · rw [h1]; simp [execute]
  · rw [h1]; simp [execute]

/-- Witness for C2: a concrete repeated invocation pair runs the tool
once and yields the skipped text the second time. -/
theorem execute_antiloop_witness :
    (({} : ToolExecState).lastSignature ≠ some ("echo", "x", "hi")) ∧
    parseOk unitEnv "x" = true ∧
    ((execute unitEnv okTool {} "hi" "id1" "function" "echo" "x" none).toolRan = true ∧
      (execute unitEnv okTool
          (execute unitEnv okTool {} "hi" "id1" "function" "echo" "x" none).newState
          "hi" "id2" "function" "echo" "x" none).toolRan = false ∧
      (execute unitEnv okTool
          (execute unitEnv okTool {} "hi" "id1" "function" "echo" "x" none).newState
          "hi" "id2" "function" "echo" "x" none).resultMsg.content =
        .text ("Skipped repeated tool call: " ++ "echo")) :=
  ⟨by simp, rfl,
    execute_antiloop unitEnv okTool {} "hi" "id1" "function" "id2" "function" "echo" "x" none
      (by simp) rfl⟩

/-- Counterexample for C8 as stated: with a configured model list that
repeats an id and no preferred model, iter_models yields the repeated
configured model twice, not exactly once. -/
theorem iterModels_duplicates_counterexample :
    iterModels ["m", "m"] none = ["m", "m"] ∧
    "m" ∈ (["m", "m"] : List String) ∧
    (iterModels ["m", "m"] none).count "m" = 2 := by decide

/-- C8 amended: for a configured model list without duplicate ids,
iter_models yields the preferred model first exactly when it is among
the configured models, followed by the remaining configured models in
configured order; each configured model is yielded exactly once; with
no preferred id (or an empty one) the configured models are yielded
once each in order. -/
theorem iterModels_spec (models : List String) (preferred : Option String)
    (hnd : models.Nodup) :
    (∀ p, preferred = some p → p ≠ "" → p ∈ models →
      iterModels models preferred = p :: models.filter (fun m => !(m == p))) ∧
    (∀ p, preferred = some p → p ≠ "" → p ∉ models →
      iterModels models preferred = models) ∧
    ((preferred = none ∨ preferred = some "") → iterModels models preferred = models) ∧
    (∀ m ∈ models, (iterModels models preferred).count m = 1) := by
  refine ⟨?_, ?_, ?_, ?_⟩
  · intro p hp hne hmem
    subst hp
    simp [iterModels, hne, hmem]
  · intro p hp hne hmem
    subst hp
    simp only [iterModels, if_neg hne, if_neg hmem, List.nil_append]
    exact List.filter_eq_self.mpr fun a ha => by
      simp only [Bool.not_eq_true']
      exact beq_false_of_ne fun h => hmem (h ▸ ha)
  · rintro (h | h) <;> subst h <;> simp [iterModels]
  · intro m hm
    match preferred with
    | none => simpa [iterModels] using List.count_eq_one_of_mem hnd hm
    | some p =>
      by_cases hpe : p = ""
      · subst hpe
        simpa [iterModels] using List.count_eq_one_of_mem hnd hm
      by_cases hpm : p ∈ models
      · rw [iterModels]
        simp only [if_neg hpe, if_pos hpm]
        by_cases hmp : m = p
        · subst hmp
          have h0 : (models.filter (fun x => !(x == m))).count m = 0 :=
            List.count_eq_zero_of_not_mem fun h => by
              have := List.of_mem_filter h
              simp at this
          simp [h0]
        · have : List.count m (p :: models.filter (fun x => !(x == p))) =
              List.count m (models.filter (fun x => !(x == p))) :=
            List.count_cons_of_ne hmp _
          rw [List.cons_append, List.nil_append, this,
            List.count_filter (by simpa using hmp)]
          exact List.count_eq_one_of_mem hnd hm
      · rw [iterModels]
        simp only [if_neg hpe, if_neg hpm, List.nil_append]
        have hmp : m ≠ p := fun h => hpm (h ▸ hm)
        rw [List.count_filter (by simpa using hmp)]
        exact List.count_eq_one_of_mem hnd hm

/-- Witness for C8 amended: a concrete duplicate-free model list with a
preferred id present yields the preferred first and each configured
model once. -/
theorem iterModels_spec_witness :
    (["a", "b", "c"] : List String).Nodup ∧
    iterModels ["a", "b", "c"] (some "b") = "b" :: ["a", "b", "c"].filter (fun m => !(m == "b")) ∧
    ∀ m ∈ (["a", "b", "c"] : List String),
      (iterModels ["a", "b", "c"] (some "b")).count m = 1 :=
  ⟨by decide,
    (iterModels_spec ["a", "b", "c"] (some "b") (by decide)).1 "b" rfl (by decide) (by decide),
    (iterModels_spec ["a", "b", "c"] (some "b") (by decide)).2.2.2⟩

/-- Membership in the cleaned message list implies the message is not
tool shaped. -/
theorem mem_cleanToolCalls {m : Msg} {l : List Msg} (h : m ∈ cleanToolCalls l) :
    m.role ≠ "tool" ∧ m.hasToolCalls = false := by
  have h2 := List.of_mem_filter h
  simp only [toolShaped, Bool.not_eq_true', Bool.or_eq_false_iff, beq_eq_false_iff_ne] at h2
  exact h2

/-- C4: when a dispatch fails with the does-not-support-tools provider
error while tools were requested, exactly one automatic retry is
performed; its request has the tool schema removed and every tool
shaped message stripped, and when that retry succeeds its response is
returned to the caller. -/
theorem retry_without_tools {R : Type} (request : ChatRequest) (r : R) (orig : List Msg)
    (htools : request.tools ≠ none) :
    (invokeWithRetry [Except.error .toolsUnsupported, Except.ok r] request orig).outcome
        = .ok r ∧
    (invokeWithRetry [Except.error .toolsUnsupported, Except.ok r] request orig).requests
        = [request,
            { request with messages := cleanToolCalls request.messages, tools := none }] ∧
    ∀ m ∈ cleanToolCalls request.messages, m.role ≠ "tool" ∧ m.hasToolCalls = false := by
  refine ⟨?_, ?_, fun m hm => mem_cleanToolCalls hm⟩
  · simp [invokeWithRetry, adjustRequestOnError]
  · simp [invokeWithRetry, adjustRequestOnError]

/-- Witness for C4: a concrete request with a tool schema and a tool
shaped message is retried once without tools and the retry response is
returned. -/
theorem retry_without_tools_witness :
    reqTools.tools ≠ none ∧
    ((invokeWithRetry [Except.error .toolsUnsupported, Except.ok (0 : ℕ)] reqTools [uMsg]).outcome
        = .ok 0 ∧
      (invokeWithRetry [Except.error .toolsUnsupported, Except.ok (0 : ℕ)] reqTools [uMsg]).requests
        = [reqTools,
            { reqTools with messages := cleanToolCalls reqTools.messages, tools := none }] ∧
      ∀ m ∈ cleanToolCalls reqTools.messages, m.role ≠ "tool" ∧ m.hasToolCalls = false) :=
  ⟨by decide, retry_without_tools reqTools 0 [uMsg] (by decide)⟩

/-- The offset scan never returns an index above its starting point. -/
theorem scanCut_le {tail : List Msg} : ∀ {i j : ℕ}, scanCut tail i = some j → j ≤ i := by
  intro i
  induction i with
  | zero =>
    intro j h
    unfold scanCut at h
    split at h
    · cases h; exact Nat.le_refl 0
    · cases h
  | succ i ih =>
    intro j h
    unfold scanCut at h
    split at h
    · cases h; exact Nat.le_refl _
    · exact Nat.le_trans (ih h) (Nat.le_succ i)

/-- The cut index never exceeds the midpoint. -/
theorem findCut_le (tail : List Msg) (half : ℕ) : findCut tail half ≤ half := by
  unfold findCut
  cases h : scanCut tail half with
  | none => simp
  | some j => simpa using scanCut_le h

/-- When the midpoint message is a user or assistant message, the cut
is exactly the midpoint, so exactly the oldest half is dropped. -/
theorem findCut_midpoint (tail : List Msg) (half : ℕ)
    (h : isUserOrAssistant (tail.getD half mdefault) = true) :
    findCut tail half = half := by
  cases half with
  | zero =>
    unfold findCut scanCut
    rw [if_pos h]
    rfl
  | succ i =>
    unfold findCut scanCut
    rw [if_pos h]
    rfl

/-- Counterexample for C5 as stated: on four non-system messages whose
midpoint is a tool message, _reduce_messages walks the cut back to the
first user message and drops nothing at all, while the claim demands
that the oldest half (two messages) be dropped. -/
theorem reduceMessages_not_half_counterexample :
    reduceMessages [uMsg, tMsg, tMsg, aMsg] = .ok [uMsg, tMsg, tMsg, aMsg] ∧
    reduceMessagesClaimed [uMsg, tMsg, tMsg, aMsg] = .ok [tMsg, aMsg] ∧
    reduceMessages [uMsg, tMsg, tMsg, aMsg] ≠ reduceMessagesClaimed [uMsg, tMsg, tMsg, aMsg] := by
  decide

/-- C5 amended: on an input-too-long provider error the retried request
keeps a leading system message and keeps the suffix of the non-system
messages from the latest user-or-assistant message at or before the
midpoint, so at most the oldest half is dropped, and exactly the oldest
half when the midpoint message is a user or assistant message; when
only one non-system message remains no retry happens and the failure is
fatal to the caller. -/
theorem reduce_on_input_too_long {R : Type} (request : ChatRequest) (orig : List Msg) :
    (2 ≤ (nonSystemTail request.messages).length →
      adjustRequestOnError request .inputTooLong = .ok (some (reducedRequest request)) ∧
      findCut (nonSystemTail request.messages) ((nonSystemTail request.messages).length / 2)
          ≤ (nonSystemTail request.messages).length / 2 ∧
      (isUserOrAssistant ((nonSystemTail request.messages).getD
            ((nonSystemTail request.messages).length / 2) mdefault) = true →
        findCut (nonSystemTail request.messages) ((nonSystemTail request.messages).length / 2)
            = (nonSystemTail request.messages).length / 2)) ∧
    ((nonSystemTail request.messages).length = 1 →
      (invokeWithRetry (R := R) [Except.error .inputTooLong] request orig).outcome =
        .raisedAdjust "input text exceeded input token limit" ∧
      (invokeWithRetry (R := R) [Except.error .inputTooLong] request orig).requests
        = [request]) := by
  constructor
  · intro h2
    have hnil : request.messages ≠ [] := by
      intro hm
      rw [hm] at h2
      simp [nonSystemTail] at h2
    have hne : ¬ request.messages.isEmpty := by
      simpa [List.isEmpty_iff] using hnil
    have h1 : ¬ (nonSystemTail request.messages).length = 1 := by omega
    have h0 : ¬ (nonSystemTail request.messages).isEmpty := by
      rw [List.isEmpty_iff]
      intro hm
      rw [hm] at h2
      simp at h2
    have hred : reduceMessages request.messages =
        .ok (systemHead request.messages ++ (nonSystemTail request.messages).drop
          (findCut (nonSystemTail request.messages)
            ((nonSystemTail request.messages).length / 2))) := by
      unfold reduceMessages
      rw [if_neg hne, if_neg h1, if_neg h0]
    refine ⟨?_, findCut_le _ _, findCut_midpoint _ _⟩
    unfold adjustRequestOnError reducedRequest
    rw [hred]
  · intro h1
    have hnil : request.messages ≠ [] := by
      intro hm
      rw [hm] at h1
      simp [nonSystemTail] at h1
    have hne : ¬ request.messages.isEmpty := by
      simpa [List.isEmpty_iff] using hnil
    have hred : reduceMessages request.messages =
        .error "input text exceeded input token limit" := by
      unfold reduceMessages
      rw [if_neg hne, if_pos h1]
    constructor
    · simp [invokeWithRetry, adjustRequestOnError, hred]
    · simp [invokeWithRetry, adjustRequestOnError, hred]

/-- Witness for C5 amended: a concrete request with three non-system
messages is reduced at the cut index, and a concrete request with one
non-system message is fatal without any retry. -/
theorem reduce_on_input_too_long_witness :
    2 ≤ (nonSystemTail reqFour.messages).length ∧
    adjustRequestOnError reqFour .inputTooLong = .ok (some (reducedRequest reqFour)) ∧
    (nonSystemTail reqSingle.messages).length = 1 ∧
    (invokeWithRetry (R := ℕ) [Except.error .inputTooLong] reqSingle []).outcome =
      .raisedAdjust "input text exceeded input token limit" :=
  ⟨by decide,
    ((reduce_on_input_too_long (R := ℕ) reqFour []).1 (by decide)).1,
    by decide,
    ((reduce_on_input_too_long (R := ℕ) reqSingle []).2 (by decide)).1⟩

/-- Counterexample for C7 as stated: the fatal input-too-long case with
a single non-system message surfaces a substitute error text, not the
original provider error. -/
theorem fatal_substitute_error_counterexample :
    (invokeWithRetry (R := ℕ) [Except.error .inputTooLong] reqSingle [uMsg]).outcome =
      .raisedAdjust "input text exceeded input token limit" ∧
    (invokeWithRetry (R := ℕ) [Except.error .inputTooLong] reqSingle [uMsg]).outcome ≠
      .raised .inputTooLong := by decide

/-- C7 amended: a recoverable provider failure is invisible to the
caller (the retried dispatch returns a normal response), and a fatal
failure for which the adjustment logic itself returns normally
(returning no retry request) surfaces the original provider error
unchanged; the exception is the input-too-long reduction, which can
itself raise and then reaches the caller as a substitute error. -/
theorem error_surfacing {R : Type} (request retried : ChatRequest) (e : ProviderError)
    (r : R) (orig : List Msg) :
    (adjustRequestOnError request e = .ok (some retried) →
      (invokeWithRetry [Except.error e, Except.ok r] request orig).outcome = .ok r) ∧
    (adjustRequestOnError request e = .ok none →
      (invokeWithRetry (R := R) [Except.error e] request orig).outcome = .raised e) := by
  constructor
  · intro h
    simp [invokeWithRetry, h]
  · intro h
    simp [invokeWithRetry, h]

/-- Witness for C7 amended: a concrete recoverable temperature error is
invisible, and a concrete unrecognized error is re-raised unchanged. -/
theorem error_surfacing_witness :
    adjustRequestOnError reqTools .temperatureFixed =
      .ok (some { reqTools with temperature := 1 }) ∧
    (invokeWithRetry [Except.error .temperatureFixed, Except.ok (5 : ℕ)] reqTools []).outcome
      = .ok 5 ∧
    adjustRequestOnError reqTools (.otherErr "boom") = .ok none ∧
    (invokeWithRetry (R := ℕ) [Except.error (.otherErr "boom")] reqTools []).outcome =
      .raised (.otherErr "boom") :=
  ⟨by decide,
    (error_surfacing reqTools { reqTools with temperature := 1 } .temperatureFixed 5 []).1
      (by decide),
    by decide,
    (error_surfacing reqTools reqTools (.otherErr "boom") (0 : ℕ) []).2 (by decide)⟩

/-- Appending one more copy on the right extends a flattened
replication by one. -/
theorem flatten_replicate_succ {α : Type} (n : ℕ) (x : List α) :
    (List.replicate n x).flatten ++ x = (List.replicate (n + 1) x).flatten := by
  induction n with
  | zero => simp
  | succ k ih => simp only [List.replicate_succ, List.flatten_cons, List.append_assoc, ih]

/-- C9: during a dispatch, every originally supplied message is
appended to the HistoryManager once per attempt of the retry recursion
(the finally block runs at every level), so a run with k recovery
retries records the original messages k plus one times. -/
theorem history_recorded_per_attempt {R : Type} (oracle : List (Except ProviderError R))
    (request : ChatRequest) (orig : List Msg) :
    (invokeWithRetry oracle request orig).history =
      (List.replicate (invokeWithRetry oracle request orig).requests.length orig).flatten := by
  induction oracle generalizing request with
  | nil => simp [invokeWithRetry]
  | cons o rest ih =>
    cases o with
    | ok r => simp [invokeWithRetry]
    | error e =>
      cases h : adjustRequestOnError request e with
      | error s => simp [invokeWithRetry, h]
      | ok opt =>
        cases opt with
        | none => simp [invokeWithRetry, h]
        | some req2 =>
          simp only [invokeWithRetry, h, List.length_cons]
          rw [ih req2]
          exact flatten_replicate_succ _ _

/-- The per-call loop skips every call whose name is unmapped, leaving
state, records, results and the execution count untouched. -/
theorem runToolCalls_unmapped {A C : Type} (env : ToolEnv A C)
    (mapping : String → Option ((A → Except String JValue) × Bool))
    (context : Option C) (ac : String) (st : ToolExecState)
    (calls : List ParsedToolCall) (h : ∀ c ∈ calls, mapping c.name = none) :
    runToolCalls env mapping context ac st calls = (st, [], [], 0) := by
  induction calls with
  | nil => rfl
  | cons c rest ih =>
    unfold runToolCalls
    rw [h c (List.mem_cons_self c rest)]
    exact ih fun c2 hc => h c2 (List.mem_cons_of_mem _ hc)

/-- C10: when a parsed response carries tool calls but none of their
names is in the discovered tool mapping, the tool round returns the
assistant text at once: no tool is executed, no follow-up messages are
built, and no further provider call is made. -/
theorem unmapped_tool_calls_return_text {A C : Type} (env : ToolEnv A C)
    (mapping : String → Option ((A → Except String JValue) × Bool))
    (context : Option C) (ac : String) (st : ToolExecState)
    (toolCalls : List ParsedToolCall) (hne : toolCalls ≠ [])
    (h : ∀ c ∈ toolCalls, mapping c.name = none) :
    handleToolLoop env mapping context ac st toolCalls = (.done ac, st, 0) := by
  unfold handleToolLoop
  rw [runToolCalls_unmapped env mapping context ac st toolCalls h]
  rfl

/-- Witness for C10: one concrete unmapped tool call yields the
assistant text with zero executions. -/
theorem unmapped_tool_calls_return_text_witness :
    ([({ id := "id1", type := "function", name := "ghost", args := "x" } : ParsedToolCall)]
      ≠ []) ∧
    handleToolLoop unitEnv (fun _ => none) none "hello" {}
        [{ id := "id1", type := "function", name := "ghost", args := "x" }] =
      (.done "hello", {}, 0) :=
  ⟨List.cons_ne_nil _ _,
    unmapped_tool_calls_return_text unitEnv (fun _ => none) none "hello" {}
      [{ id := "id1", type := "function", name := "ghost", args := "x" }]
      (List.cons_ne_nil _ _) (fun _ _ => rfl)⟩

/-- Reversing a take of the reverse is a drop from the front. -/
theorem reverse_take_rev {α : Type} (l : List α) (k : ℕ) :
    (l.reverse.take k).reverse = l.drop (l.length - k) := by
  rw [← List.rtake_eq_reverse_take_reverse]
  rfl

/-- The greedy fit takes an initial segment of its input. -/
theorem greedyFit_take (tk : Msg → ℕ) (l : List Msg) :
    ∀ t, ∃ k, greedyFit tk t l = l.take k := by
  induction l with
  | nil => intro t; exact ⟨0, rfl⟩
  | cons m rest ih =>
    intro t
    unfold greedyFit
    by_cases h : t + tk m > MAX_INPUT_TOKENS
    · rw [if_pos h]; exact ⟨0, rfl⟩
    · rw [if_neg h]
      obtain ⟨k, hk⟩ := ih (t + tk m)
      exact ⟨k + 1, by rw [hk, List.take_succ_cons]⟩

/-- The greedy fit keeps the running total within the budget. -/
theorem greedyFit_sum_le (tk : Msg → ℕ) (l : List Msg) :
    ∀ t, t ≤ MAX_INPUT_TOKENS →
      t + ((greedyFit tk t l).map tk).sum ≤ MAX_INPUT_TOKENS := by
  induction l with
  | nil => intro t ht; simpa [greedyFit] using ht
  | cons m rest ih =>
    intro t ht
    unfold greedyFit
    by_cases h : t + tk m > MAX_INPUT_TOKENS
    · rw [if_pos h]; simpa using ht
    · rw [if_neg h]
      have h2 := ih (t + tk m) (by omega)
      simp only [List.map_cons, List.sum_cons]
      omega

/-- Any initial segment that fits the budget is no longer than the
greedy fit. -/
theorem greedyFit_maximal (tk : Msg → ℕ) (l : List Msg) :
    ∀ t k, k ≤ l.length →
      t + ((l.take k).map tk).sum ≤ MAX_INPUT_TOKENS →
      k ≤ (greedyFit tk t l).length := by
  induction l with
  | nil =>
    intro t k hk _
    unfold greedyFit
    simpa using hk
  | cons m rest ih =>
    intro t k hk hsum
    cases k with
    | zero => exact Nat.zero_le _
    | succ j =>
      have hsum2 : t + tk m + ((rest.take j).map tk).sum ≤ MAX_INPUT_TOKENS := by
        simp only [List.take_succ_cons, List.map_cons, List.sum_cons] at hsum
        omega
      have hcond : ¬ t + tk m > MAX_INPUT_TOKENS := by omega
      unfold greedyFit
      rw [if_neg hcond]
      simp only [List.length_cons]
      have hj : j ≤ rest.length := by simpa using hk
      exact Nat.succ_le_succ (ih (t + tk m) j hj hsum2)

/-- The reversed greedy fit over the reversed list is the largest
suffix of the list whose token sum, on top of the base total, stays
within the budget. -/
theorem greedy_block_spec (tk : Msg → ℕ) (t : ℕ) (L : List Msg)
    (ht : t ≤ MAX_INPUT_TOKENS) :
    (∃ k, (greedyFit tk t L.reverse).reverse = L.drop k) ∧
    t + (((greedyFit tk t L.reverse).reverse).map tk).sum ≤ MAX_INPUT_TOKENS ∧
    ∀ S k2, S = L.drop k2 → t + (S.map tk).sum ≤ MAX_INPUT_TOKENS →
      S.length ≤ (greedyFit tk t L.reverse).reverse.length := by
  refine ⟨?_, ?_, ?_⟩
  · obtain ⟨k, hk⟩ := greedyFit_take tk L.reverse t
    exact ⟨L.length - k, by rw [hk, reverse_take_rev]⟩
  · have h := greedyFit_sum_le tk L.reverse t ht
    simpa [List.map_reverse, List.sum_reverse] using h
  · intro S k2 hS hsum
    have hS2 : S = L.drop (L.length - S.length) := by
      by_cases hk : k2 ≤ L.length
      · rw [hS]
        congr 1
        rw [List.length_drop]
        omega
      · have hnil : S = [] := by
          rw [hS]
          exact List.drop_eq_nil_of_le (by omega)
        rw [hnil]
        have h0 : ([] : List Msg).length = 0 := rfl
        rw [h0, Nat.sub_zero]
        exact (List.drop_eq_nil_of_le (Nat.le_refl _)).symm
    have hrev : S.reverse = L.reverse.take S.length := by
      have h3 : (L.reverse.take S.length).reverse = S := by
        rw [reverse_take_rev, ← hS2]
      have h4 := congrArg List.reverse h3
      rw [List.reverse_reverse] at h4
      exact h4.symm
    have hsum2 : t + ((L.reverse.take S.length).map tk).sum ≤ MAX_INPUT_TOKENS := by
      rw [← hrev]
      simpa [List.map_reverse, List.sum_reverse] using hsum
    have hjle : S.length ≤ L.reverse.length := by
      have hlen := congrArg List.length hS2
      rw [List.length_drop] at hlen
      rw [List.length_reverse]
      omega
    have hmax := greedyFit_maximal tk L.reverse t S.length hjle hsum2
    rw [List.length_reverse]
    exact hmax

/-- C3: with history inclusion on, the block prepended before the new
turn is exactly the largest suffix of the last n history entries, in
chronological order, whose combined token count together with the new
turn stays within the 64000-token input budget (assuming the new turn
itself fits the budget). -/
theorem extendHistory_budget (tk : Msg → ℕ) (entries messages : List Msg) (n : ℕ)
    (hn : 0 < n) (hbase : (messages.map tk).sum ≤ MAX_INPUT_TOKENS) :
    extendHistory tk entries n messages = prependedBlock tk entries n messages ++ messages ∧
    (∃ k, prependedBlock tk entries n messages = (getChatHistory entries n).drop k) ∧
    (messages.map tk).sum + ((prependedBlock tk entries n messages).map tk).sum
        ≤ MAX_INPUT_TOKENS ∧
    ∀ S k2, S = (getChatHistory entries n).drop k2 →
      (messages.map tk).sum + (S.map tk).sum ≤ MAX_INPUT_TOKENS →
      S.length ≤ (prependedBlock tk entries n messages).length := by
  have h := greedy_block_spec tk ((messages.map tk).sum) (getChatHistory entries n) hbase
  exact ⟨rfl, h.1, h.2.1, h.2.2⟩

/-- Witness for C3: three history entries of 30000 tokens each, a new
turn of 30000 tokens and a budget of 64000 keep exactly the most recent
entry. -/
theorem extendHistory_budget_witness :
    0 < 2 ∧
    (([uMsg].map tkW).sum ≤ MAX_INPUT_TOKENS) ∧
    extendHistory tkW [aMsg, aMsg, aMsg] 2 [uMsg] =
      prependedBlock tkW [aMsg, aMsg, aMsg] 2 [uMsg] ++ [uMsg] :=
  ⟨by decide, by decide,
    (extendHistory_budget tkW [aMsg, aMsg, aMsg] [uMsg] 2 (by decide) (by decide)).1⟩

/-- Every attempt of the retry loop passes the same parameters. -/
theorem tenacityRun_requests_const {P R : Type} (params : P)
    (oracle : List (Except AgentError R)) :
    ∀ n, (tenacityRun params oracle n).requests =
      List.replicate (tenacityRun params oracle n).requests.length params := by
  induction oracle with
  | nil => intro n; rfl
  | cons o rest ih =>
    intro n
    cases o with
    | ok r => rfl
    | error e =>
      simp only [tenacityRun]
      by_cases h : e = .rateLimit ∧ n < 3
      · rw [if_pos h]
        simp only [List.length_cons, List.replicate_succ, List.cons.injEq, true_and]
        exact ih (n + 1)
      · rw [if_neg h]
        rfl

/-- Starting from attempt n, the retry loop makes at most 4 - n
attempts. -/
theorem tenacityRun_attempts_le {P R : Type} (params : P)
    (oracle : List (Except AgentError R)) :
    ∀ n, n ≤ 3 → (tenacityRun params oracle n).requests.length ≤ 4 - n := by
  induction oracle with
  | nil => intro n _; simp [tenacityRun]
  | cons o rest ih =>
    intro n hn
    cases o with
    | ok r =>
      show 1 ≤ 4 - n
      omega
    | error e =>
      simp only [tenacityRun]
      by_cases h : e = .rateLimit ∧ n < 3
      · rw [if_pos h]
        have h2 := ih (n + 1) (by omega)
        simp only [List.length_cons]
        omega
      · rw [if_neg h]
        show 1 ≤ 4 - n
        omega

/-- A completed run makes at least one attempt. -/
theorem tenacityRun_pos {P R : Type} (params : P) (oracle : List (Except AgentError R))
    (n : ℕ) (h : (tenacityRun params oracle n).outcome ≠ .hung) :
    1 ≤ (tenacityRun params oracle n).requests.length := by
  cases oracle with
  | nil => exact absurd rfl h
  | cons o rest =>
    cases o with
    | ok r => exact Nat.le_refl 1
    | error e =>
      simp only [tenacityRun]
      by_cases hc : e = .rateLimit ∧ n < 3
      · rw [if_pos hc]
        simp
      · rw [if_neg hc]
        exact Nat.le_refl 1

/-- On a completed run the waits slept between attempts follow the
clamped exponential backoff formula, one wait between each consecutive
pair of attempts. -/
theorem tenacityRun_waits {P R : Type} (params : P)
    (oracle : List (Except AgentError R)) :
    ∀ n, (tenacityRun params oracle n).outcome ≠ .hung →
      (tenacityRun params oracle n).waits =
        (List.range ((tenacityRun params oracle n).requests.length - 1)).map
          (fun i => tenacityWait (n + i)) := by
  induction oracle with
  | nil => intro n h; exact absurd rfl h
  | cons o rest ih =>
    intro n h
    cases o with
    | ok r => rfl
    | error e =>
      by_cases hc : e = .rateLimit ∧ n < 3
      · have hout : (tenacityRun params (Except.error e :: rest) n).outcome =
            (tenacityRun params rest (n + 1)).outcome := by
          simp only [tenacityRun]
          rw [if_pos hc]
        have hh : (tenacityRun params rest (n + 1)).outcome ≠ .hung := by
          rw [← hout]; exact h
        have hpos := tenacityRun_pos params rest (n + 1) hh
        have hw := ih (n + 1) hh
        simp only [tenacityRun]
        rw [if_pos hc]
        simp only [List.length_cons, Nat.add_sub_cancel]
        obtain ⟨j, hj⟩ : ∃ j, (tenacityRun params rest (n + 1)).requests.length = j + 1 :=
          ⟨(tenacityRun params rest (n + 1)).requests.length - 1, by omega⟩
        rw [hw, hj]
        rw [List.range_succ_eq_map]
        simp only [List.map_cons, List.map_map, Nat.add_zero, Nat.add_sub_cancel]
        congr 1
        apply List.map_congr_left
        intro i _
        simp only [Function.comp_apply]
        congr 1
        omega
      · simp only [tenacityRun]
        rw [if_neg hc]
        rfl

/-- A rate limit error is re-raised only once the attempt budget is
exhausted: from attempt n the run then has exactly 4 - n attempts. -/
theorem tenacityRun_rl_exhaust {P R : Type} (params : P)
    (oracle : List (Except AgentError R)) :
    ∀ n, n ≤ 3 → (tenacityRun params oracle n).outcome = .raised .rateLimit →
      (tenacityRun params oracle n).requests.length = 4 - n := by
  induction oracle with
  | nil =>
    intro n _ h
    exact absurd h (by simp [tenacityRun])
  | cons o rest ih =>
    intro n hn h
    cases o with
    | ok r => exact absurd h (by simp [tenacityRun])
    | error e =>
      by_cases hc : e = .rateLimit ∧ n < 3
      · have h2 : (tenacityRun params rest (n + 1)).outcome = .raised .rateLimit := by
          have hout : (tenacityRun params (Except.error e :: rest) n).outcome =
              (tenacityRun params rest (n + 1)).outcome := by
            simp only [tenacityRun]
            rw [if_pos hc]
          rw [← hout]; exact h
        have h3 := ih (n + 1) (by omega) h2
        simp only [tenacityRun]
        rw [if_pos hc]
        simp only [List.length_cons]
        omega
      · have he : e = .rateLimit := by
          have hout : (tenacityRun params (Except.error e :: rest) n).outcome =
              .raised e := by
            simp only [tenacityRun]
            rw [if_neg hc]
          rw [hout] at h
          cases h
          rfl
        have h4 : ¬ n < 3 := fun hlt => hc ⟨he, hlt⟩
        have h5 : n = 3 := by omega
        simp only [tenacityRun]
        rw [if_neg hc]
        simp [h5]

/-- C6: the rate limit retry of invoke_chat_completions passes the same
request on every attempt, makes at most 3 attempts with the clamped
exponential backoff waits between them, and re-raises the rate limit
error only after all 3 attempts are exhausted. -/
theorem rate_limit_retry {P R : Type} (params : P)
    (oracle : List (Except AgentError R)) :
    (invokeChatCompletions params oracle).requests =
      List.replicate (invokeChatCompletions params oracle).requests.length params ∧
    (invokeChatCompletions params oracle).requests.length ≤ 3 ∧
    ((invokeChatCompletions params oracle).outcome ≠ .hung →
      (invokeChatCompletions params oracle).waits =
        (List.range ((invokeChatCompletions params oracle).requests.length - 1)).map
          (fun i => tenacityWait (1 + i))) ∧
    ((invokeChatCompletions params oracle).outcome = .raised .rateLimit →
      (invokeChatCompletions params oracle).requests.length = 3 ∧
      (invokeChatCompletions params oracle).waits = [tenacityWait 1, tenacityWait 2]) := by
  simp only [invokeChatCompletions]
  refine ⟨tenacityRun_requests_const params oracle 1, ?_, tenacityRun_waits params oracle 1, ?_⟩
  · have := tenacityRun_attempts_le params oracle 1 (by omega)
    omega
  · intro h
    have hlen := tenacityRun_rl_exhaust params oracle 1 (by omega) h
    have hnh : (tenacityRun params oracle 1).outcome ≠ .hung := by
      rw [h]
      simp
    have hw := tenacityRun_waits params oracle 1 hnh
    rw [hlen] at hw
    refine ⟨by omega, ?_⟩
    rw [hw]
    decide

/-- Witness for C6: three straight rate limit errors exhaust the retry
budget in exactly 3 attempts and re-raise after two backoff waits. -/
theorem rate_limit_retry_witness :
    (invokeChatCompletions "req" oracleRL).outcome = .raised .rateLimit ∧
    ((invokeChatCompletions "req" oracleRL).requests.length = 3 ∧
      (invokeChatCompletions "req" oracleRL).waits = [tenacityWait 1, tenacityWait 2]) :=
  ⟨rfl, (rate_limit_retry "req" oracleRL).2.2.2 rfl⟩

end Fsc
